import Mathlib

/-!
Verification of the VQ-VAE training script (`train_vqvae.py`) of the
marka17/vqvae repository.

The repository snapshot contains only the training script; the model file
`models/vqvae.py` (classes `Model`, `Criterion`, the vector quantizer) and
`utils.py` (`MeterLogger`, the loggers, `set_random_seed`) are imported by the
script but are not present.  Definitions for those components are therefore
modelled from the specification (marked `Modelled from the spec:` in their doc
comments), while everything about the script itself — the `__main__`
configuration block, the epoch loop, the metric updates, the checkpointing —
is embedded directly from `train_vqvae.py`.

Numeric values are rationals, so every definition is executable and equalities
are decidable.  Gradients are tracked with forward-mode dual numbers: a `Dual`
carries a value and the directional derivative of that value with respect to a
chosen perturbation of the input.
-/

/-- Squared Euclidean distance between two vectors represented as lists of
rationals (positions beyond the shorter list are ignored, as the quantizer is
only ever called with vectors of the codebook dimension `D`). -/
def sqDist (x y : List ℚ) : ℚ :=
  ((x.zip y).map (fun p => (p.1 - p.2) ^ 2)).sum

/-- Modelled from the spec: the vector quantizer of `models/vqvae.py` is not in
the repository snapshot.  Per §4.1, for one latent vector the selected code is
the index of the codebook row at minimal squared Euclidean distance, ties
broken by lowest index.  The recursion keeps the earlier index on ties
(`≤` against the best of the tail). -/
def bestIndex (lat : List ℚ) : List (List ℚ) → Nat
  | [] => 0
  | [_] => 0
  | r :: rest@(_ :: _) =>
    let j := bestIndex lat rest
    if sqDist lat r ≤ sqDist lat (rest.getD j []) then 0 else j + 1

/-- Modelled from the spec: per §4.1 the quantization index grid holds, for
every spatial position independently, the selected codebook index. -/
def quantizeIndices (cb : List (List ℚ)) (grid : List (List ℚ)) : List Nat :=
  grid.map (fun lat => bestIndex lat cb)

/-- Modelled from the spec: per §4.1 the quantized grid replaces every latent
vector by the codebook row at its selected index. -/
def quantizeGrid (cb : List (List ℚ)) (grid : List (List ℚ)) : List (List ℚ) :=
  grid.map (fun lat => cb.getD (bestIndex lat cb) [])

/-- A forward-mode dual number: a value together with the directional
derivative of that value with respect to a chosen perturbation direction of
the network input. -/
structure Dual where
  val : ℚ
  grad : ℚ
deriving DecidableEq

/-- Dual-number addition. -/
def Dual.add (a b : Dual) : Dual := ⟨a.val + b.val, a.grad + b.grad⟩

/-- Dual-number subtraction. -/
def Dual.sub (a b : Dual) : Dual := ⟨a.val - b.val, a.grad - b.grad⟩

/-- Dual-number multiplication (product rule). -/
def Dual.mul (a b : Dual) : Dual := ⟨a.val * b.val, a.val * b.grad + a.grad * b.val⟩

/-- Scaling a dual number by a constant. -/
def Dual.scale (c : ℚ) (a : Dual) : Dual := ⟨c * a.val, c * a.grad⟩

/-- Stop-gradient (detach): the value passes through, the derivative is
blocked. -/
def Dual.stopGradient (a : Dual) : Dual := ⟨a.val, 0⟩

/-- Modelled from the spec: per §4.1, the straight-through output fed to the
decoder is `latent + stop_gradient(quantized - latent)`, applied elementwise
over the flattened grid. -/
def straightThrough (latent quantized : List Dual) : List Dual :=
  (latent.zip quantized).map (fun p => p.1.add ((p.2.sub p.1).stopGradient))

/-- Sum of a list of dual numbers. -/
def dualSum (l : List Dual) : Dual := l.foldr Dual.add ⟨0, 0⟩

/-- Modelled from the spec: mean squared error over the flattened tensor
(§4.2), in dual-number arithmetic.  Division by the element count is scaling
by its inverse (0 for an empty tensor, as `(0 : ℚ)⁻¹ = 0`). -/
def mseD (x y : List Dual) : Dual :=
  Dual.scale ((x.length : ℚ))⁻¹
    (dualSum ((x.zip y).map (fun p => (p.1.sub p.2).mul (p.1.sub p.2))))

/-- Modelled from the spec: the `Criterion` of `models/vqvae.py` is not in the
repository snapshot.  Per §4.2 it returns
`(total, reconstruction, vq, commitment)` where the vq loss detaches the
latent side, the commitment loss detaches the quantized side, and
`total = reconstruction + vq + β * commitment`. -/
def criterion (β : ℚ) (image latent quantized recon : List Dual) :
    Dual × Dual × Dual × Dual :=
  let r := mseD image recon
  let v := mseD (latent.map Dual.stopGradient) quantized
  let c := mseD latent (quantized.map Dual.stopGradient)
  (r.add (v.add (c.scale β)), r, v, c)

/-- The four per-batch loss scalars (values only, no gradients). -/
structure LossVals where
  total : ℚ
  reconstruction : ℚ
  vq : ℚ
  commitment : ℚ
deriving DecidableEq

/-- Value-level mean squared error between two flattened tensors. -/
def mseQ (x y : List ℚ) : ℚ := sqDist x y / (x.length : ℚ)

/-- Modelled from the spec: the values of the four scalars returned by the
criterion (§4.2); `detach` does not change values, so the vq and commitment
losses have equal values. -/
def criterionVal (β : ℚ) (image latent quantized recon : List ℚ) : LossVals :=
  let r := mseQ image recon
  let v := mseQ latent quantized
  let c := mseQ latent quantized
  ⟨r + v + β * c, r, v, c⟩

/-- The arguments object built by the `__main__` block of `train_vqvae.py`
(only the fields the claims mention). -/
structure Args where
  dataset : String
  experimentName : String
  seed : Int
  batchSize : Nat
  numEpoch : Nat
  beta : ℚ
  /-- Set at line 149 of the script; never read inside `main`. -/
  experimentModelPath : String
deriving DecidableEq

/-- Exceptions the script can raise. -/
inductive PyError
  | valueError (msg : String)
  | nameError (name : String)
deriving DecidableEq

/-- Externally visible effects of the script's startup
(`__main__` block, lines 133-154, followed by the head of `main`,
lines 23-42). -/
inductive StartupEv
  | setSeed (s : Int)
  | mkdir (path : String)
  | writeConfig (path : String)
  | writerCreate (path : String)
  | writerAddHparams
  | datasetLoad (name : String)
deriving DecidableEq

/-- The startup sequence of `train_vqvae.py`, embedded from lines 133-154 and
23-42: seed the RNG, create the experiment directory if absent, write
`config.json`, create the `logs` and `models` directories if absent, then
enter `main`, which constructs the `SummaryWriter` over the log directory,
writes hyperparameters to it, and only then dispatches on the dataset name,
raising `ValueError` for anything but `cifar10` and `mnist`.
`dirExists` models which paths already exist on disk. -/
def scriptStartup (dirExists : String → Bool) (a : Args) :
    List StartupEv × Option PyError :=
  let root := "experiments/" ++ a.experimentName
  let logs := root ++ "/logs"
  let models := root ++ "/models"
  let pre :=
    [StartupEv.setSeed a.seed] ++
    (if dirExists root then [] else [StartupEv.mkdir root]) ++
    [StartupEv.writeConfig (root ++ "/config.json")] ++
    (if dirExists logs then [] else [StartupEv.mkdir logs]) ++
    (if dirExists models then [] else [StartupEv.mkdir models]) ++
    [StartupEv.writerCreate logs, StartupEv.writerAddHparams]
  if a.dataset = "cifar10" then
    (pre ++ [StartupEv.datasetLoad "cifar10"], none)
  else if a.dataset = "mnist" then
    (pre ++ [StartupEv.datasetLoad "mnist"], none)
  else
    (pre, some (PyError.valueError ("Invalid dataset: " ++ a.dataset)))

/-- One metric-logger update call: meter name, scalar value, weight. -/
abbrev MeterUpdate : Type := String × ℚ × Nat

/-- The three `train_metric_logger.update` calls the script issues per training
batch (lines 78-80): total, reconstruction and vq losses, each weighted by
`train_dataloader.batch_size`, the configured batch size. -/
def trainBatchUpdates (a : Args) (l : LossVals) : List MeterUpdate :=
  [("total_loss", l.total, a.batchSize),
   ("reconstruction_loss", l.reconstruction, a.batchSize),
   ("vq_loss", l.vq, a.batchSize)]

/-- The three `val_metric_logger.update` calls per evaluation batch
(lines 98-100), weighted by `test_dataloader.batch_size`, which is the
configured batch size integer-divided by 4 (line 46). -/
def valBatchUpdates (a : Args) (l : LossVals) : List MeterUpdate :=
  [("total_loss", l.total, a.batchSize / 4),
   ("reconstruction_loss", l.reconstruction, a.batchSize / 4),
   ("vq_loss", l.vq, a.batchSize / 4)]

/-- All metric updates of one training epoch, given the per-batch losses. -/
def trainEpochUpdates (a : Args) (losses : List LossVals) : List MeterUpdate :=
  (losses.map (trainBatchUpdates a)).flatten

/-- All metric updates of one evaluation epoch, given the per-batch losses. -/
def valEpochUpdates (a : Args) (losses : List LossVals) : List MeterUpdate :=
  (losses.map (valBatchUpdates a)).flatten

/-- Sizes of the successive batches a `DataLoader` with `drop_last=False`
yields from a dataset of `n` items at configured batch size `b`: full batches
of `b`, then one remainder batch when `b` does not divide `n`. -/
def batchSizes (n b : Nat) : List Nat :=
  if b = 0 then []
  else List.replicate (n / b) b ++ (if n % b = 0 then [] else [n % b])

/-- Modelled from the spec: `MeterLogger` of `utils.py` is not in the
repository snapshot.  Per §3 it keeps a running weighted average:
`update(value, n)` adds `value * n` to the sum and `n` to the count. -/
structure Meter where
  sum : ℚ
  count : Nat
deriving DecidableEq

/-- One running-average update of a meter. -/
def Meter.update (m : Meter) (value : ℚ) (n : Nat) : Meter :=
  ⟨m.sum + value * (n : ℚ), m.count + n⟩

/-- The running average a meter reports. -/
def Meter.avg (m : Meter) : ℚ := m.sum / (m.count : ℚ)

/-- Events of the per-epoch loop body of `main` (lines 62-108). -/
inductive Ev
  | trainForward (i : Nat)
  | optimStep (i : Nat)
  | trainMetricsWrite
  | imageWrite (phase : String)
  | embeddingsWrite
  | evalForward (i : Nat)
  | valMetricsWrite
  | checkpointSave (epoch : Nat)
deriving DecidableEq

/-- The training phase of one epoch (lines 64-80): for each numbered batch,
one forward pass, then one optimizer step mutating the parameters.  `optStep`
abstracts `zero_grad`/`backward`/`step`; the theorems hold for every such
function. -/
def trainPhase {P B : Type} (optStep : P → B → P) :
    List (Nat × B) → P → P × List Ev
  | [], p => (p, [])
  | (i, b) :: rest, p =>
    let p1 := optStep p b
    let out := trainPhase optStep rest p1
    (out.1, Ev.trainForward i :: Ev.optimStep i :: out.2)

/-- The evaluation phase of one epoch (lines 87-100): for each numbered batch,
one forward pass under `no_grad` whose losses feed only the metric logger; the
parameters are never assigned. -/
def evalPhase {P B : Type} (lossOf : P → B → LossVals) :
    List (Nat × B) → P → P × List LossVals × List Ev
  | [], p => (p, [], [])
  | (i, b) :: rest, p =>
    let l := lossOf p b
    let out := evalPhase lossOf rest p
    (out.1, l :: out.2.1, Ev.evalForward i :: out.2.2)

/-- Everything one epoch of `main` does before the checkpoint (lines 64-104):
training phase, train-side writes, evaluation phase, val-side writes.
Returns the parameters leaving the epoch and the event trace. -/
def epochBody {P B : Type} (optStep : P → B → P) (lossOf : P → B → LossVals)
    (trainBatches evalBatches : List B) (p : P) : P × List Ev :=
  let t := trainPhase optStep trainBatches.enum p
  let e := evalPhase lossOf evalBatches.enum t.1
  (e.1,
   t.2 ++ [Ev.trainMetricsWrite, Ev.imageWrite "train", Ev.embeddingsWrite] ++
   e.2.2 ++ [Ev.valMetricsWrite, Ev.imageWrite "val"])

/-- One full epoch (lines 62-108): the body followed by the checkpoint save
keyed by the epoch index (lines 107-108). -/
def runEpoch {P B : Type} (optStep : P → B → P) (lossOf : P → B → LossVals)
    (trainBatches evalBatches : List B) (epoch : Nat) (p : P) : P × List Ev :=
  let out := epochBody optStep lossOf trainBatches evalBatches p
  (out.1, out.2 ++ [Ev.checkpointSave epoch])

/-- Events classified as belonging to the training phase of an epoch
(per-batch training events and the train-side end-of-phase writes). -/
def Ev.isTrainPhase : Ev → Bool
  | .trainForward _ => true
  | .optimStep _ => true
  | .trainMetricsWrite => true
  | .imageWrite phase => phase = "train"
  | .embeddingsWrite => true
  | _ => false

/-- Events classified as belonging to the evaluation phase of an epoch. -/
def Ev.isEvalPhase : Ev → Bool
  | .evalForward _ => true
  | .valMetricsWrite => true
  | .imageWrite phase => phase = "val"
  | _ => false

/-- The epoch loop of `main` (lines 62-108), threading the module-global
`experiment_model_path` as `globalModelPath`: line 107 reads that bare global
— not `args.experiment_model_path` — so the checkpoint path resolves only when
the global is defined; otherwise Python raises `NameError` there, after the
epoch's training and evaluation have already run.  `argsModelPath` is the
value carried by the args object; the definition never consults it, mirroring
the script. -/
def mainLoop {P B : Type} (optStep : P → B → P) (lossOf : P → B → LossVals)
    (globalModelPath : Option String) (argsModelPath : String)
    (trainBatches evalBatches : List B) :
    Nat → Nat → P → List Ev × Option PyError
  | 0, _, _ => ([], none)
  | n + 1, epoch, p =>
    let body := epochBody optStep lossOf trainBatches evalBatches p
    match globalModelPath with
    | none => (body.2, some (PyError.nameError "experiment_model_path"))
    | some _ =>
      let rest := mainLoop optStep lossOf globalModelPath argsModelPath
        trainBatches evalBatches n (epoch + 1) body.1
      (body.2 ++ [Ev.checkpointSave epoch] ++ rest.1, rest.2)

/-- Relational specification of the quantizer's index selection: `i` is in
range, minimizes the squared distance, and every earlier index is strictly
worse (lowest-index tie-break). -/
def IsSelectedIndex (cb : List (List ℚ)) (lat : List ℚ) (i : Nat) : Prop :=
  i < cb.length ∧
  (∀ j, j < cb.length → sqDist lat (cb.getD i []) ≤ sqDist lat (cb.getD j [])) ∧
  (∀ j, j < i → sqDist lat (cb.getD i []) < sqDist lat (cb.getD j []))

instance (cb : List (List ℚ)) (lat : List ℚ) (i : Nat) :
    Decidable (IsSelectedIndex cb lat i) := by
  unfold IsSelectedIndex; infer_instance

/-- The quantized grid determined by an index grid. -/
def gridOfIndices (cb : List (List ℚ)) (idxs : List Nat) : List (List ℚ) :=
  idxs.map (fun i => cb.getD i [])

/-- Observable outputs of one training step: the quantization index grid and
the four loss values. -/
structure StepOut where
  indices : List Nat
  losses : LossVals
deriving DecidableEq

/-- Relational specification of one training step's observables, for a batch
flattened to one latent grid: the index grid selects per position by the
quantizer's rule, and the losses are the criterion evaluated on the images,
the latents, the quantized grid and the decoder's reconstruction.  `decode`
abstracts the decoder network. -/
def StepRel (β : ℚ) (cb : List (List ℚ)) (decode : List (List ℚ) → List ℚ)
    (images : List ℚ) (latents : List (List ℚ)) (out : StepOut) : Prop :=
  out.indices.length = latents.length ∧
  (∀ p, p < latents.length →
    IsSelectedIndex cb (latents.getD p []) (out.indices.getD p 0)) ∧
  out.losses = criterionVal β images latents.flatten
    (gridOfIndices cb out.indices).flatten (decode (gridOfIndices cb out.indices))

instance (β : ℚ) (cb : List (List ℚ)) (decode : List (List ℚ) → List ℚ)
    (images : List ℚ) (latents : List (List ℚ)) (out : StepOut) :
    Decidable (StepRel β cb decode images latents out) := by
  unfold StepRel; infer_instance

theorem bestIndex_lt (lat : List ℚ) (cb : List (List ℚ)) (h : cb ≠ []) :
    bestIndex lat cb < cb.length := by
  induction cb with
  | nil => exact absurd rfl h
  | cons r rest ih =>
    cases rest with
    | nil => simp [bestIndex]
    | cons s t =>
      simp only [bestIndex]
      split
      · simp
      · exact Nat.succ_lt_succ (ih (by simp))

theorem bestIndex_min (lat : List ℚ) (cb : List (List ℚ)) :
    ∀ j, j < cb.length →
      sqDist lat (cb.getD (bestIndex lat cb) []) ≤ sqDist lat (cb.getD j []) := by
  induction cb with
  | nil => intro j hj; simp at hj
  | cons r rest ih =>
    cases rest with
    | nil =>
      intro j hj
      simp only [List.length_cons, List.length_nil, Nat.lt_succ_iff, Nat.le_zero] at hj
      subst hj
      simp [bestIndex]
    | cons s t =>
      intro j hj
      simp only [bestIndex]
      split
      · cases j with
        | zero => simp
        | succ k =>
          have h1 := ih k (by simpa using hj)
          simp only [List.getD_cons_zero, List.getD_cons_succ]
          exact le_trans (by assumption) h1
      · rename_i hlt
        push_neg at hlt
        cases j with
        | zero =>
          simp only [List.getD_cons_zero, List.getD_cons_succ]
          exact le_of_lt hlt
        | succ k =>
          simp only [List.getD_cons_succ]
          exact ih k (by simpa using hj)

theorem bestIndex_firstMin (lat : List ℚ) (cb : List (List ℚ)) :
    ∀ j, j < bestIndex lat cb →
      sqDist lat (cb.getD (bestIndex lat cb) []) < sqDist lat (cb.getD j []) := by
  induction cb with
  | nil => intro j hj; simp [bestIndex] at hj
  | cons r rest ih =>
    cases rest with
    | nil => intro j hj; simp [bestIndex] at hj
    | cons s t =>
      intro j hj
      simp only [bestIndex] at hj ⊢
      split
      · rename_i hle
        rw [if_pos hle] at hj
        exact absurd hj (Nat.not_lt_zero j)
      · rename_i hlt
        rw [if_neg hlt] at hj
        push_neg at hlt
        cases j with
        | zero =>
          simpa using hlt
        | succ k =>
          simp only [List.getD_cons_succ]
          exact ih k (by omega)

theorem bestIndex_isSelected (cb : List (List ℚ)) (lat : List ℚ) (h : cb ≠ []) :
    IsSelectedIndex cb lat (bestIndex lat cb) :=
  ⟨bestIndex_lt lat cb h, bestIndex_min lat cb, bestIndex_firstMin lat cb⟩

theorem quantizeIndices_getD (cb grid : List (List ℚ)) (p : Nat)
    (hp : p < grid.length) :
    (quantizeIndices cb grid).getD p 0 = bestIndex (grid.getD p []) cb := by
  have hp2 : p < (quantizeIndices cb grid).length := by
    simpa [quantizeIndices] using hp
  rw [List.getD_eq_getElem _ _ hp2, List.getD_eq_getElem _ _ hp]
  simp [quantizeIndices]

theorem quantizeGrid_getD (cb grid : List (List ℚ)) (p : Nat)
    (hp : p < grid.length) :
    (quantizeGrid cb grid).getD p [] = cb.getD (bestIndex (grid.getD p []) cb) [] := by
  have hp2 : p < (quantizeGrid cb grid).length := by
    simpa [quantizeGrid] using hp
  rw [List.getD_eq_getElem _ _ hp2, List.getD_eq_getElem _ _ hp]
  simp [quantizeGrid]

/-- C1: for every latent vector in the input grid (every position `p`), the
index the quantizer selects is the argmin over all codebook rows of the
squared Euclidean distance, ties broken by the lowest index (deterministic),
and the quantized output at that position is the codebook row at the selected
index.  `IsSelectedIndex` states: in range, minimal distance, and every
earlier index strictly worse. -/
theorem c1_quantizer_argmin (cb grid : List (List ℚ)) (hcb : cb ≠ [])
    (p : Nat) (hp : p < grid.length) :
    IsSelectedIndex cb (grid.getD p []) ((quantizeIndices cb grid).getD p 0) ∧
    (quantizeGrid cb grid).getD p [] =
      cb.getD ((quantizeIndices cb grid).getD p 0) [] := by
  rw [quantizeIndices_getD cb grid p hp, quantizeGrid_getD cb grid p hp]
  exact ⟨bestIndex_isSelected cb _ hcb, rfl⟩

/-- Witness for C1 at the spec's §8 scenario: codebook
`[[0,0],[10,0],[0,10],[10,10]]`, latent `[9,9]` at position 1 of the grid
`[[1,1],[9,9]]` selects index 3 and is quantized to `[10,10]`. -/
theorem c1_quantizer_argmin_witness :
    (IsSelectedIndex [[0,0],[10,0],[0,10],[10,10]]
      (([[1,1],[9,9]] : List (List ℚ)).getD 1 [])
      ((quantizeIndices [[0,0],[10,0],[0,10],[10,10]] [[1,1],[9,9]]).getD 1 0) ∧
     (quantizeGrid [[0,0],[10,0],[0,10],[10,10]] [[1,1],[9,9]]).getD 1 [] =
       List.getD [[0,0],[10,0],[0,10],[10,10]]
         ((quantizeIndices [[0,0],[10,0],[0,10],[10,10]] [[1,1],[9,9]]).getD 1 0) []) ∧
    (quantizeIndices [[0,0],[10,0],[0,10],[10,10]] [[1,1],[9,9]]) = [0, 3] ∧
    (quantizeGrid [[0,0],[10,0],[0,10],[10,10]] [[1,1],[9,9]]) = [[0,0],[10,10]] :=
  ⟨c1_quantizer_argmin [[0,0],[10,0],[0,10],[10,10]] [[1,1],[9,9]]
      (by simp) 1 (by simp),
   by norm_num [quantizeIndices, bestIndex, sqDist],
   by norm_num [quantizeGrid, bestIndex, sqDist]⟩

/-- C2: the straight-through output `latent + stop_gradient(quantized - latent)`
is numerically equal to the quantized vector (value components agree exactly),
while its derivative with respect to the input latent is the identity: in the
forward-mode dual-number model, the directional derivative of the output
equals the directional derivative of the latent for every perturbation
direction, i.e. ∂output/∂latent = I. -/
theorem c2_straight_through (latent quantized : List Dual)
    (h : latent.length = quantized.length) :
    (straightThrough latent quantized).map Dual.val = quantized.map Dual.val ∧
    (straightThrough latent quantized).map Dual.grad = latent.map Dual.grad := by
  induction latent generalizing quantized with
  | nil =>
    cases quantized with
    | nil => simp [straightThrough]
    | cons b bs => simp at h
  | cons a as ih =>
    cases quantized with
    | nil => simp at h
    | cons b bs =>
      have h2 : as.length = bs.length := by simpa using h
      have hrec := ih bs h2
      simp only [straightThrough, List.zip_cons_cons, List.map_cons] at hrec ⊢
      refine ⟨?_, ?_⟩
      · rw [hrec.1]
        simp [Dual.add, Dual.sub, Dual.stopGradient]
      · rw [hrec.2]
        simp [Dual.add, Dual.sub, Dual.stopGradient]

/-- Witness for C2 on a toy single-vector case: latent value 1 with incoming
derivative 5, quantized value 3 with derivative 7; the output value is the
quantized value 3 and the output derivative is the latent's 5. -/
theorem c2_straight_through_witness :
    (straightThrough [⟨1, 5⟩] [⟨3, 7⟩]).map Dual.val = List.map Dual.val [⟨3, 7⟩] ∧
    (straightThrough [⟨1, 5⟩] [⟨3, 7⟩]).map Dual.grad = List.map Dual.grad [⟨1, 5⟩] :=
  c2_straight_through [⟨1, 5⟩] [⟨3, 7⟩] rfl

/-- C3: the first scalar the criterion returns is exactly
`reconstruction + vq + β * commitment`, and the other three returned scalars
are the reconstruction loss, the vq loss (latent side detached) and the
commitment loss (quantized side detached). -/
theorem c3_loss_decomposition (β : ℚ) (image latent quantized recon : List Dual) :
    (criterion β image latent quantized recon).1.val =
      (criterion β image latent quantized recon).2.1.val +
      (criterion β image latent quantized recon).2.2.1.val +
      β * (criterion β image latent quantized recon).2.2.2.val ∧
    (criterion β image latent quantized recon).2.1 = mseD image recon ∧
    (criterion β image latent quantized recon).2.2.1 =
      mseD (latent.map Dual.stopGradient) quantized ∧
    (criterion β image latent quantized recon).2.2.2 =
      mseD latent (quantized.map Dual.stopGradient) := by
  refine ⟨?_, rfl, rfl, rfl⟩
  simp only [criterion, Dual.add, Dual.scale]
  ring

/-- C4 counterexample: running the script on a fresh filesystem with dataset
`imagenet` does raise a `ValueError`, but only inside `main`, after the
`__main__` block has created the experiment directories and written
`config.json` (lines 135-151) and after `main` has created the log writer and
written hyperparameters to it (lines 23-24): partial state is created before
the failure, contrary to the claim. -/
theorem c4_counterexample :
    (scriptStartup (fun _ => false)
      ⟨"imagenet", "exp", 987, 128, 100, 1, "experiments/exp/models"⟩).2 =
      some (PyError.valueError "Invalid dataset: imagenet") ∧
    ¬ (StartupEv.mkdir "experiments/exp" ∉
        (scriptStartup (fun _ => false)
          ⟨"imagenet", "exp", 987, 128, 100, 1, "experiments/exp/models"⟩).1 ∧
       StartupEv.writeConfig "experiments/exp/config.json" ∉
        (scriptStartup (fun _ => false)
          ⟨"imagenet", "exp", 987, 128, 100, 1, "experiments/exp/models"⟩).1 ∧
       StartupEv.writerCreate "experiments/exp/logs" ∉
        (scriptStartup (fun _ => false)
          ⟨"imagenet", "exp", 987, 128, 100, 1, "experiments/exp/models"⟩).1) := by
  constructor
  · simp [scriptStartup]
  · simp [scriptStartup]

/-- C4 amended: for every dataset name other than `cifar10` and `mnist` the
run fails with a fatal `ValueError` at the dataset dispatch inside `main`, but
partial state has already been created before the failure: the `config.json`
write and the log-writer creation (and on a fresh filesystem the experiment
directories) precede it. -/
theorem c4_amended (dirExists : String → Bool) (a : Args)
    (h1 : a.dataset ≠ "cifar10") (h2 : a.dataset ≠ "mnist") :
    (scriptStartup dirExists a).2 =
      some (PyError.valueError ("Invalid dataset: " ++ a.dataset)) ∧
    StartupEv.writeConfig ("experiments/" ++ a.experimentName ++ "/config.json") ∈
      (scriptStartup dirExists a).1 ∧
    StartupEv.writerCreate ("experiments/" ++ a.experimentName ++ "/logs") ∈
      (scriptStartup dirExists a).1 := by
  refine ⟨?_, ?_, ?_⟩ <;> simp [scriptStartup, h1, h2]

/-- Witness for C4 amended at dataset `imagenet` on a fresh filesystem. -/
theorem c4_amended_witness :
    (scriptStartup (fun _ => false)
      ⟨"imagenet", "run1", 987, 128, 100, 1, "experiments/run1/models"⟩).2 =
      some (PyError.valueError ("Invalid dataset: " ++ "imagenet")) ∧
    StartupEv.writeConfig ("experiments/" ++ "run1" ++ "/config.json") ∈
      (scriptStartup (fun _ => false)
        ⟨"imagenet", "run1", 987, 128, 100, 1, "experiments/run1/models"⟩).1 ∧
    StartupEv.writerCreate ("experiments/" ++ "run1" ++ "/logs") ∈
      (scriptStartup (fun _ => false)
        ⟨"imagenet", "run1", 987, 128, 100, 1, "experiments/run1/models"⟩).1 :=
  c4_amended (fun _ => false)
    ⟨"imagenet", "run1", 987, 128, 100, 1, "experiments/run1/models"⟩
    (by simp) (by simp)

/-- C5 counterexample: in a training batch and in an evaluation batch, the
script issues no metric-logger update for the commitment loss — its name
appears in none of the update calls — so not all four per-batch loss scalars
are aggregated. -/
theorem c5_counterexample :
    "commitment_loss" ∉
      (trainBatchUpdates ⟨"cifar10", "exp", 987, 128, 100, 1, "m"⟩ ⟨1, 2, 3, 4⟩).map
        (fun u => u.1) ∧
    "commitment_loss" ∉
      (valBatchUpdates ⟨"cifar10", "exp", 987, 128, 100, 1, "m"⟩ ⟨1, 2, 3, 4⟩).map
        (fun u => u.1) := by
  constructor <;> simp [trainBatchUpdates, valBatchUpdates]

/-- C5 amended: in every training and evaluation batch, exactly three of the
four per-batch loss scalars — total, reconstruction and vq loss — are passed
to the metric logger for running-average aggregation; the commitment loss is
computed by the criterion but discarded without aggregation. -/
theorem c5_amended (a : Args) (l : LossVals) :
    (trainBatchUpdates a l).map (fun u => u.1) =
      ["total_loss", "reconstruction_loss", "vq_loss"] ∧
    (trainBatchUpdates a l).map (fun u => u.2.1) =
      [l.total, l.reconstruction, l.vq] ∧
    (valBatchUpdates a l).map (fun u => u.1) =
      ["total_loss", "reconstruction_loss", "vq_loss"] ∧
    (valBatchUpdates a l).map (fun u => u.2.1) =
      [l.total, l.reconstruction, l.vq] ∧
    "commitment_loss" ∉ (trainBatchUpdates a l).map (fun u => u.1) ∧
    "commitment_loss" ∉ (valBatchUpdates a l).map (fun u => u.1) := by
  refine ⟨rfl, rfl, rfl, rfl, ?_, ?_⟩ <;> simp [trainBatchUpdates, valBatchUpdates]

/-- C6 counterexample: with configured batch size 2 and a 5-item dataset, the
dataloader yields batches of sizes 2, 2, 1, but every metric-logger update of
the epoch is weighted by the configured size 2 — the final batch of 1 image is
weighted 2, not by the number of images in it. -/
theorem c6_counterexample :
    batchSizes 5 2 = [2, 2, 1] ∧
    (trainEpochUpdates ⟨"cifar10", "exp", 987, 2, 100, 1, "m"⟩
        [⟨0, 0, 0, 0⟩, ⟨0, 0, 0, 0⟩, ⟨0, 0, 0, 0⟩]).map (fun u => u.2.2) =
      [2, 2, 2, 2, 2, 2, 2, 2, 2] ∧
    (batchSizes 5 2).getD 2 0 ≠ 2 := by
  refine ⟨?_, ?_, ?_⟩
  · simp [batchSizes]
  · simp [trainEpochUpdates, trainBatchUpdates]
  · simp [batchSizes]

/-- C6 amended: every metric-logger update of a training epoch is weighted by
the configured batch size (`train_dataloader.batch_size`), and every update of
an evaluation epoch by the configured size integer-divided by 4
(`test_dataloader.batch_size`), regardless of the actual number of images in
the batch — a smaller final batch is overweighted at the configured size. -/
theorem c6_amended (a : Args) (losses : List LossVals) :
    (trainEpochUpdates a losses).map (fun u => u.2.2) =
      List.replicate (3 * losses.length) a.batchSize ∧
    (valEpochUpdates a losses).map (fun u => u.2.2) =
      List.replicate (3 * losses.length) (a.batchSize / 4) := by
  constructor
  · induction losses with
    | nil => rfl
    | cons l rest ih =>
      simp only [trainEpochUpdates, List.map_cons, List.flatten_cons,
        List.map_append, List.length_cons] at ih ⊢
      rw [show 3 * (rest.length + 1) = 3 + 3 * rest.length by ring,
        List.replicate_add]
      exact congrArg _ ih
  · induction losses with
    | nil => rfl
    | cons l rest ih =>
      simp only [valEpochUpdates, List.map_cons, List.flatten_cons,
        List.map_append, List.length_cons] at ih ⊢
      rw [show 3 * (rest.length + 1) = 3 + 3 * rest.length by ring,
        List.replicate_add]
      exact congrArg _ ih

theorem evalPhase_params {P B : Type} (lossOf : P → B → LossVals)
    (l : List (Nat × B)) (p : P) : (evalPhase lossOf l p).1 = p := by
  induction l with
  | nil => rfl
  | cons hd tl ih =>
    obtain ⟨i, b⟩ := hd
    simpa only [evalPhase] using ih

/-- C7: during the evaluation phase the parameters are never assigned — the
parameters after the evaluation phase equal the parameters before it, and the
parameters at the end of the whole epoch are exactly the training phase's
output, for every optimizer-step function and every loss function. -/
theorem c7_eval_no_update {P B : Type} (optStep : P → B → P)
    (lossOf : P → B → LossVals) (tb eb : List B) (epoch : Nat) (p : P) :
    (evalPhase lossOf eb.enum (trainPhase optStep tb.enum p).1).1 =
      (trainPhase optStep tb.enum p).1 ∧
    (runEpoch optStep lossOf tb eb epoch p).1 =
      (trainPhase optStep tb.enum p).1 := by
  refine ⟨evalPhase_params _ _ _, ?_⟩
  simp only [runEpoch, epochBody]
  exact evalPhase_params _ _ _

theorem trainPhase_events {P B : Type} (optStep : P → B → P)
    (l : List (Nat × B)) (p : P) :
    ∀ x ∈ (trainPhase optStep l p).2, x.isTrainPhase = true := by
  induction l generalizing p with
  | nil => intro x hx; simp [trainPhase] at hx
  | cons hd tl ih =>
    intro x hx
    obtain ⟨i, b⟩ := hd
    simp only [trainPhase, List.mem_cons] at hx
    rcases hx with h | h | h
    · subst h; rfl
    · subst h; rfl
    · exact ih _ x h

theorem evalPhase_events {P B : Type} (lossOf : P → B → LossVals)
    (l : List (Nat × B)) (p : P) :
    ∀ x ∈ (evalPhase lossOf l p).2.2, x.isEvalPhase = true := by
  induction l generalizing p with
  | nil => intro x hx; simp [evalPhase] at hx
  | cons hd tl ih =>
    intro x hx
    obtain ⟨i, b⟩ := hd
    simp only [evalPhase, List.mem_cons] at hx
    rcases hx with h | h
    · subst h; rfl
    · exact ih _ x h

/-- C8: the trace of one epoch decomposes as training-phase events, then
evaluation-phase events, then the checkpoint save: evaluation runs only after
the training phase of the same epoch (and on the just-updated parameters, see
`c7_eval_no_update`), every checkpoint in the epoch is keyed by that epoch's
index, and exactly one checkpoint is written, strictly after both phases. -/
theorem c8_epoch_ordering {P B : Type} (optStep : P → B → P)
    (lossOf : P → B → LossVals) (tb eb : List B) (epoch : Nat) (p : P) :
    ∃ t e,
      (runEpoch optStep lossOf tb eb epoch p).2 =
        t ++ e ++ [Ev.checkpointSave epoch] ∧
      (∀ x ∈ t, x.isTrainPhase = true) ∧
      (∀ x ∈ e, x.isEvalPhase = true) ∧
      (∀ j, Ev.checkpointSave j ∈ (runEpoch optStep lossOf tb eb epoch p).2 →
        j = epoch) ∧
      (runEpoch optStep lossOf tb eb epoch p).2.count (Ev.checkpointSave epoch)
        = 1 := by
  have hdec :
      (runEpoch optStep lossOf tb eb epoch p).2 =
        ((trainPhase optStep tb.enum p).2 ++
          [Ev.trainMetricsWrite, Ev.imageWrite "train", Ev.embeddingsWrite]) ++
        ((evalPhase lossOf eb.enum (trainPhase optStep tb.enum p).1).2.2 ++
          [Ev.valMetricsWrite, Ev.imageWrite "val"]) ++
        [Ev.checkpointSave epoch] := by
    simp [runEpoch, epochBody, List.append_assoc]
  have ht : ∀ x ∈ (trainPhase optStep tb.enum p).2 ++
      [Ev.trainMetricsWrite, Ev.imageWrite "train", Ev.embeddingsWrite],
      x.isTrainPhase = true := by
    intro x hx
    rcases List.mem_append.mp hx with h | h
    · exact trainPhase_events optStep tb.enum p x h
    · simp only [List.mem_cons, List.not_mem_nil, or_false] at h
      rcases h with rfl | rfl | rfl <;> rfl
  have he : ∀ x ∈ (evalPhase lossOf eb.enum (trainPhase optStep tb.enum p).1).2.2 ++
      [Ev.valMetricsWrite, Ev.imageWrite "val"],
      x.isEvalPhase = true := by
    intro x hx
    rcases List.mem_append.mp hx with h | h
    · exact evalPhase_events lossOf eb.enum _ x h
    · simp only [List.mem_cons, List.not_mem_nil, or_false] at h
      rcases h with rfl | rfl <;> rfl
  refine ⟨_, _, hdec, ht, he, ?_, ?_⟩
  · intro j hj
    rw [hdec] at hj
    rcases List.mem_append.mp hj with h | h
    · rcases List.mem_append.mp h with h1 | h1
      · have := ht _ h1
        simp [Ev.isTrainPhase] at this
      · have := he _ h1
        simp [Ev.isEvalPhase] at this
    · simp only [List.mem_cons, List.not_mem_nil, or_false] at h
      exact (Ev.checkpointSave.injEq j epoch).mp h
  · have hnt : Ev.checkpointSave epoch ∉ (trainPhase optStep tb.enum p).2 ++
        [Ev.trainMetricsWrite, Ev.imageWrite "train", Ev.embeddingsWrite] := by
      intro hmem
      have := ht _ hmem
      simp [Ev.isTrainPhase] at this
    have hne : Ev.checkpointSave epoch ∉
        (evalPhase lossOf eb.enum (trainPhase optStep tb.enum p).1).2.2 ++
        [Ev.valMetricsWrite, Ev.imageWrite "val"] := by
      intro hmem
      have := he _ hmem
      simp [Ev.isEvalPhase] at this
    have h1 : List.count (Ev.checkpointSave epoch)
        (trainPhase optStep tb.enum p).2 = 0 :=
      List.count_eq_zero.mpr (fun h => hnt (List.mem_append.mpr (Or.inl h)))
    have h2 : List.count (Ev.checkpointSave epoch)
        (evalPhase lossOf eb.enum (trainPhase optStep tb.enum p).1).2.2 = 0 :=
      List.count_eq_zero.mpr (fun h => hne (List.mem_append.mpr (Or.inl h)))
    rw [hdec]
    simp [List.count_append, h1, h2, List.count_cons]

/-- C10: the checkpoint path at line 107 is built from the module-global
`experiment_model_path` (assigned only in the `__main__` block at line 148),
not from the args object; when `main` runs with that global undefined, the run
raises `NameError` at the first end-of-epoch checkpoint — after the entire
first epoch of training and evaluation (the full `epochBody` trace) has
already run — regardless of the path stored in the args object, while a
defined global never produces that error. -/
theorem c10_checkpoint_uses_global {P B : Type} (optStep : P → B → P)
    (lossOf : P → B → LossVals) (argsModelPath : String)
    (tb eb : List B) (n : Nat) (p : P) :
    mainLoop optStep lossOf none argsModelPath tb eb (n + 1) 0 p =
      ((epochBody optStep lossOf tb eb p).2,
       some (PyError.nameError "experiment_model_path")) ∧
    ∀ path epoch,
      (mainLoop optStep lossOf (some path) argsModelPath tb eb n epoch p).2
        = none := by
  constructor
  · simp [mainLoop]
  · intro path epoch
    induction n generalizing epoch p with
    | zero => rfl
    | succ m ih => simpa only [mainLoop] using ih _ _

theorem selectedIndex_unique (cb : List (List ℚ)) (lat : List ℚ) (i j : Nat)
    (hi : IsSelectedIndex cb lat i) (hj : IsSelectedIndex cb lat j) : i = j := by
  obtain ⟨hi1, hi2, hi3⟩ := hi
  obtain ⟨hj1, hj2, hj3⟩ := hj
  rcases Nat.lt_trichotomy i j with h | h | h
  · have ha := hj3 i h
    have hb := hi2 j hj1
    exact absurd (lt_of_le_of_lt hb ha) (lt_irrefl _)
  · exact h
  · have ha := hi3 j h
    have hb := hj2 i hi1
    exact absurd (lt_of_le_of_lt hb ha) (lt_irrefl _)

/-- C9: one training step is deterministic.  Any two outputs satisfying the
step's relational specification — index grid selected by the quantizer's
lowest-index argmin rule, losses given by the criterion on the resulting
quantized grid and reconstruction — are equal: with a fixed seed (hence
identical parameters and batch) two runs produce identical quantization index
grids and identical loss values.  The proof rests on the uniqueness of the
tie-broken argmin; no RNG enters the step. -/
theorem c9_step_deterministic (β : ℚ) (cb : List (List ℚ))
    (decode : List (List ℚ) → List ℚ) (images : List ℚ)
    (latents : List (List ℚ)) (o1 o2 : StepOut)
    (h1 : StepRel β cb decode images latents o1)
    (h2 : StepRel β cb decode images latents o2) : o1 = o2 := by
  obtain ⟨hl1, hsel1, hloss1⟩ := h1
  obtain ⟨hl2, hsel2, hloss2⟩ := h2
  have hidx : o1.indices = o2.indices := by
    apply List.ext_getElem (by rw [hl1, hl2])
    intro n hn1 hn2
    have hn : n < latents.length := hl1 ▸ hn1
    have e1 := hsel1 n hn
    have e2 := hsel2 n hn
    have h := selectedIndex_unique cb (latents.getD n []) _ _ e1 e2
    rwa [List.getD_eq_getElem _ _ hn1, List.getD_eq_getElem _ _ hn2] at h
  have hlo : o1.losses = o2.losses := by rw [hloss1, hloss2, hidx]
  cases o1
  cases o2
  simp_all

theorem isSelectedIndex_example : IsSelectedIndex [[0], [1]] [0] 0 := by
  refine ⟨by norm_num, ?_, ?_⟩
  · intro j hj
    simp only [List.length_cons, List.length_nil] at hj
    interval_cases j <;> norm_num [sqDist]
  · intro j hj
    omega

/-- Witness for C9: for codebook `[[0],[1]]`, one latent `[0]`, image `[5]`
and a decoder returning `[5]`, the explicitly given output and the computed
output both satisfy the step relation, so determinism makes them equal. -/
theorem c9_step_deterministic_witness :
    (⟨[0], ⟨0, 0, 0, 0⟩⟩ : StepOut) =
      ⟨quantizeIndices [[0], [1]] [[0]], criterionVal 1 [5] [0] [0] [5]⟩ :=
  c9_step_deterministic 1 [[0], [1]] (fun _ => [5]) [5] [[0]] _ _
    (by
      refine ⟨rfl, ?_, ?_⟩
      · intro p hp
        have hp0 : p = 0 := by simpa using hp
        subst hp0
        simpa using isSelectedIndex_example
      · norm_num [criterionVal, gridOfIndices, mseQ, sqDist])
    (by
      have hq : quantizeIndices [[0], [1]] [[0]] = [0] := by
        norm_num [quantizeIndices, bestIndex, sqDist]
      refine ⟨?_, ?_, ?_⟩
      · simp [hq]
      · intro p hp
        have hp0 : p = 0 := by simpa using hp
        subst hp0
        simpa [hq] using isSelectedIndex_example
      · simp [hq, gridOfIndices])
